import Mathlib

/-!
Shallow embedding of the latex2sre CLI (src/index.js): the embedded-asset
resolution and extraction subsystem, the locale-data cache, the conversion
result cache, and the batch/stream input loop. Filesystem paths are modelled
as lists of path components; file and asset contents as strings (the source
decodes every buffer as UTF-8 text); the process-wide mutable state
(environment variable SRE_JSON_PATH, global mirror, caches, filesystem) is
threaded explicitly through a World record.
-/

namespace Latex2Sre

/-- Filesystem paths, as lists of components; path.join appends components. -/
abbrev Path := List String

/-- The filesystem, an association of paths to file contents; a write conses
a new binding in front, so lookup sees the most recent write first. -/
abbrev FileSystem := List (Path × String)

/-- JS truthiness of an optional path-valued string (undefined and the empty
string are falsy), as in the checks on process.env.SRE_JSON_PATH. -/
def jsTruthyPath : Option Path → Bool
  | none => false
  | some p => !p.isEmpty

/-- Result of JSON.parse on the manifest text: an object whose files field
may be absent (the source reads manifest.files with a fallback to []). -/
structure ManifestJson where
  files : Option (List String)
deriving Repr, DecidableEq

/-- Process-wide state of src/index.js that the asset subsystem touches. -/
structure World where
  /-- process.env.SRE_JSON_PATH -/
  envPath : Option Path
  /-- global.SRE_JSON_PATH -/
  globalPath : Option Path
  /-- the bound sea.getAsset accessor, when available (miss returns none) -/
  seaGetAsset : Option (String → Option String)
  /-- the accessor a late require of node:sea would yield inside
  ensureExtractedAssets, when that module loads -/
  nodeSeaGetAsset : Option (String → Option String)
  /-- result of resolving speech-rule-engine lib/mathmaps from node_modules
  in getFsJsonPath (none models the caught resolution failure) -/
  nmMathmaps : Option Path
  /-- JSON.parse on manifest text; none models a thrown parse error -/
  parseJson : String → Option ManifestJson
  /-- mathmapCache: locale name to loaded JSON text, newest first -/
  mathmapCache : List (String × String)
  /-- the filesystem contents visible to fs reads and writes -/
  fs : FileSystem
  /-- the fresh unique directory the mkdtemp call would create -/
  tmpBase : Path
  /-- the extractedDir module variable -/
  extractedDir : Option Path

/-- textFromBuffer in index.js: a null or undefined buffer becomes the empty
string, otherwise the buffer decodes to its UTF-8 text (our content model). -/
def textFromBuffer : Option String → String
  | none => ""
  | some s => s

/-- The embedded asset name mathmaps/<file> used throughout index.js. -/
def mathmapsAsset (file : String) : String := "mathmaps/" ++ file

/-- loadLocaleFromAssets: serve the locale JSON text from embedded SEA
assets, with mathmapCache memoization. A missing asset decodes to "". -/
def loadLocaleFromAssets (w : World) (locale : String) :
    Except String (String × World) :=
  match w.mathmapCache.lookup locale with
  | some s => .ok (s, w)
  | none =>
    match w.seaGetAsset with
    | none => .error "SEA assets not available"
    | some getAsset =>
      let str := textFromBuffer (getAsset (mathmapsAsset (locale ++ ".json")))
      .ok (str, { w with mathmapCache := (locale, str) :: w.mathmapCache })

/-- getFsJsonPath: prefer the env var or the global mirror (first truthy),
otherwise the node_modules resolution of speech-rule-engine mathmaps. -/
def getFsJsonPath (w : World) : Option Path :=
  if jsTruthyPath w.envPath || jsTruthyPath w.globalPath then
    if jsTruthyPath w.envPath then w.envPath else w.globalPath
  else
    w.nmMathmaps

/-- loadLocaleFromFs: read <base>/<locale>.json from the resolved filesystem
path, with mathmapCache memoization; a falsy base or a missing file throws. -/
def loadLocaleFromFs (w : World) (locale : String) :
    Except String (String × World) :=
  match w.mathmapCache.lookup locale with
  | some s => .ok (s, w)
  | none =>
    match getFsJsonPath w with
    | none => .error "SRE JSON path not found"
    | some base =>
      if base.isEmpty then .error "SRE JSON path not found"
      else
        match w.fs.lookup (base ++ [locale ++ ".json"]) with
        | none => .error "ENOENT: no such file or directory"
        | some str => .ok (str, { w with mathmapCache := (locale, str) :: w.mathmapCache })

/-- loadLocaleAny: cache first; then embedded assets when available and no
SRE_JSON_PATH env override is set; otherwise the filesystem loader. -/
def loadLocaleAny (w : World) (locale : String) :
    Except String (String × World) :=
  match w.mathmapCache.lookup locale with
  | some s => .ok (s, w)
  | none =>
    if w.seaGetAsset.isSome && !jsTruthyPath w.envPath then
      loadLocaleFromAssets w locale
    else
      loadLocaleFromFs w locale

/-- A filesystem-mutating operation performed during extraction. -/
inductive WriteOp where
  | mkdirOp : Path → WriteOp
  | writeFileOp : Path → String → WriteOp
deriving Repr, DecidableEq

/-- The rebinding block at the top of ensureExtractedAssets: when getAsset
is unbound, try to bind it from a late require of node:sea. -/
def rebindSea (w : World) : World :=
  if w.seaGetAsset.isNone then { w with seaGetAsset := w.nodeSeaGetAsset } else w

/-- ensureExtractedAssets: return at once when SRE_JSON_PATH is truthy;
rebind getAsset from node:sea when unbound; read and parse the embedded
manifest; create a fresh temp directory and a mathmaps subdirectory; write
every listed asset that reads successfully, skipping the ones that do not;
then record the destination in the env var, the global and extractedDir.
The second component lists the filesystem writes performed. -/
def ensureExtractedAssets (w : World) : World × List WriteOp :=
  if jsTruthyPath w.envPath then (w, [])
  else
    let w := rebindSea w
    match w.seaGetAsset with
    | none => (w, [])
    | some getAsset =>
      let manifestStr := textFromBuffer (getAsset (mathmapsAsset "manifest.json"))
      match w.parseJson manifestStr with
      | none => (w, [])
      | some manifest =>
        let files := manifest.files.getD []
        let destDir := w.tmpBase ++ ["mathmaps"]
        let newFiles : FileSystem := files.filterMap fun file =>
          (getAsset (mathmapsAsset file)).map fun content => (destDir ++ [file], content)
        ({ w with
            envPath := some destDir
            globalPath := some destDir
            extractedDir := some destDir
            fs := newFiles.reverse ++ w.fs },
         WriteOp.mkdirOp w.tmpBase :: WriteOp.mkdirOp destDir ::
           files.filterMap fun file =>
             (getAsset (mathmapsAsset file)).map fun content =>
               WriteOp.writeFileOp (destDir ++ [file]) content)

/-- The text a locale load produced, when it succeeded. -/
def localeText : Except String (String × World) → Option String
  | .ok (s, _) => some s
  | .error _ => none

/-- Whether a locale load failed. -/
def localeLoadFailed : Except String (String × World) → Bool
  | .ok _ => false
  | .error _ => true

/-- The speech parameters read from the CLI options object. -/
structure ConvOptions where
  locale : String
  domain : String
  style : String
  modality : String
deriving Repr, DecidableEq

/-- The conversion cache key, the pipe-joined template string from
convertToSpeech in index.js. -/
def cacheKey (latex : String) (o : ConvOptions) : String :=
  latex ++ "|" ++ o.locale ++ "|" ++ o.domain ++ "|" ++ o.style ++ "|" ++ o.modality

/-- Outcome of one convertToSpeech call: its result, the conversion cache
afterwards, and how many times the MathJax-and-SRE pipeline ran (the body
of the try block, modelled by the compute argument). -/
structure ConvResult where
  result : Except String String
  cache : List (String × String)
  computeCalls : Nat

/-- convertToSpeech: on a cache hit (caching enabled) return the memoized
speech with no recomputation; otherwise run the pipeline, store the result
when caching is enabled, and wrap a pipeline failure in a conversion error. -/
def convertToSpeech (compute : String → Except String String) (useCache : Bool)
    (opts : ConvOptions) (cache : List (String × String)) (latex : String) :
    ConvResult :=
  let key := cacheKey latex opts
  match (if useCache then cache.lookup key else none) with
  | some v => { result := .ok v, cache := cache, computeCalls := 0 }
  | none =>
    match compute latex with
    | .ok speech =>
      { result := .ok speech
        cache := if useCache then (key, speech) :: cache else cache
        computeCalls := 1 }
    | .error msg =>
      { result := .error ("Conversion error for \"" ++ latex ++ "\": " ++ msg)
        cache := cache
        computeCalls := 1 }

/-- JS String.prototype.trim, modelled on the character list: drop leading
and trailing whitespace. -/
def jsTrim (s : String) : String :=
  ⟨((s.data.dropWhile Char.isWhitespace).reverse.dropWhile Char.isWhitespace).reverse⟩

/-- Outcome of the batch or stdin loop of processInput: the outputs pushed
in order, the messages printed to the error stream in order, the conversion
cache afterwards, and the total number of pipeline runs. -/
structure BatchResult where
  outputs : List String
  errors : List String
  cache : List (String × String)
  computeCalls : Nat
deriving Repr, DecidableEq

/-- The per-line loop shared by the batch-file and stdin branches of
processInput: trim the line, skip it when empty, otherwise convert the
trimmed text, pushing the speech to the outputs on success and the message
to the error stream on failure, and continue with the next line. -/
def processLines (compute : String → Except String String) (useCache : Bool)
    (opts : ConvOptions) :
    List String → List (String × String) → BatchResult
  | [], cache => { outputs := [], errors := [], cache := cache, computeCalls := 0 }
  | line :: rest, cache =>
    let trimmed := jsTrim line
    if trimmed = "" then
      processLines compute useCache opts rest cache
    else
      let r := convertToSpeech compute useCache opts cache trimmed
      let tail := processLines compute useCache opts rest r.cache
      match r.result with
      | .ok speech =>
        { outputs := speech :: tail.outputs
          errors := tail.errors
          cache := tail.cache
          computeCalls := r.computeCalls + tail.computeCalls }
      | .error msg =>
        { outputs := tail.outputs
          errors := msg :: tail.errors
          cache := tail.cache
          computeCalls := r.computeCalls + tail.computeCalls }

/-! Helper lemmas. -/

theorem rebindSea_envPath (w : World) : (rebindSea w).envPath = w.envPath := by
  unfold rebindSea
  by_cases h : w.seaGetAsset.isNone <;> simp [h]

theorem rebindSea_idem (w : World) : rebindSea (rebindSea w) = rebindSea w := by
  obtain ⟨e, g, s, ns, nm, pj, mc, fsys, tb, ed⟩ := w
  unfold rebindSea
  cases s <;> cases ns <;> simp

theorem ensureExtracted_of_truthy (w : World) (h : jsTruthyPath w.envPath = true) :
    ensureExtractedAssets w = (w, []) := by
  simp [ensureExtractedAssets, h]

theorem ensureExtracted_no_sea (w : World) (h : jsTruthyPath w.envPath = false)
    (hs : (rebindSea w).seaGetAsset = none) :
    ensureExtractedAssets w = (rebindSea w, []) := by
  simp [ensureExtractedAssets, h, hs]

theorem ensureExtracted_parse_fail (w : World) (g : String → Option String)
    (h : jsTruthyPath w.envPath = false)
    (hs : (rebindSea w).seaGetAsset = some g)
    (hp : (rebindSea w).parseJson
      (textFromBuffer (g (mathmapsAsset "manifest.json"))) = none) :
    ensureExtractedAssets w = (rebindSea w, []) := by
  simp [ensureExtractedAssets, h, hs, hp]

theorem ensureExtracted_success (w : World) (g : String → Option String)
    (m : ManifestJson)
    (h : jsTruthyPath w.envPath = false)
    (hs : (rebindSea w).seaGetAsset = some g)
    (hp : (rebindSea w).parseJson
      (textFromBuffer (g (mathmapsAsset "manifest.json"))) = some m) :
    ensureExtractedAssets w =
      ({ rebindSea w with
          envPath := some ((rebindSea w).tmpBase ++ ["mathmaps"])
          globalPath := some ((rebindSea w).tmpBase ++ ["mathmaps"])
          extractedDir := some ((rebindSea w).tmpBase ++ ["mathmaps"])
          fs := ((m.files.getD []).filterMap fun file =>
              (g (mathmapsAsset file)).map fun content =>
                ((rebindSea w).tmpBase ++ ["mathmaps", file], content)).reverse ++
            (rebindSea w).fs },
        WriteOp.mkdirOp (rebindSea w).tmpBase ::
          WriteOp.mkdirOp ((rebindSea w).tmpBase ++ ["mathmaps"]) ::
          (m.files.getD []).filterMap fun file =>
            (g (mathmapsAsset file)).map fun content =>
              WriteOp.writeFileOp ((rebindSea w).tmpBase ++ ["mathmaps", file]) content) := by
  simp [ensureExtractedAssets, h, hs, hp]

theorem rebindSea_of_some (w : World) (g : String → Option String)
    (h : w.seaGetAsset = some g) : rebindSea w = w := by
  simp [rebindSea, h]

/-- Association lookup finds the given value when some entry of the front
list carries the key and every front entry with the key carries that value. -/
theorem lookup_of_uniform (l rest : FileSystem) (k : Path) (v : String)
    (hmem : ∃ p ∈ l, p.1 = k)
    (hall : ∀ p ∈ l, p.1 = k → p.2 = v) :
    (l ++ rest).lookup k = some v := by
  induction l with
  | nil => simp at hmem
  | cons a t ih =>
    obtain ⟨a1, a2⟩ := a
    by_cases hk : k == a1
    · have hv : a2 = v := hall (a1, a2) (by simp) (eq_of_beq hk).symm
      simp [List.lookup, hk, hv]
    · have hmem2 : ∃ p ∈ t, p.1 = k := by
        obtain ⟨p, hp, hpk⟩ := hmem
        rcases List.mem_cons.mp hp with heq | hp2
        · refine absurd ?_ hk
          rw [heq] at hpk
          exact beq_iff_eq.mpr hpk.symm
        · exact ⟨p, hp2, hpk⟩
      have hall2 : ∀ p ∈ t, p.1 = k → p.2 = v := fun p hp hpk =>
        hall p (List.mem_cons_of_mem _ hp) hpk
      have hknot : (k == a1) = false := by simpa using hk
      simpa [List.lookup, hknot] using ih hmem2 hall2

/-! Concrete instances used by the witnesses. -/

/-- A concrete embedded-asset accessor: the manifest and en.json are
present, everything else (in particular missing.json) is absent. -/
def demoGet : String → Option String := fun name =>
  if name = "mathmaps/manifest.json" then some "MANIFESTTEXT"
  else if name = "mathmaps/en.json" then some "ENRULES"
  else if name = "mathmaps/de.json" then some "DERULES"
  else none

/-- A concrete JSON.parse: the manifest text parses to a three-entry file
list, anything else throws. -/
def demoParse : String → Option ManifestJson := fun s =>
  if s = "MANIFESTTEXT" then some ⟨some ["en.json", "missing.json", "de.json"]⟩
  else none

/-- A world with the override environment variable set and embedded assets
also present. -/
def wEnvSet : World :=
  { envPath := some ["opt", "mathmaps"]
    globalPath := none
    seaGetAsset := some demoGet
    nodeSeaGetAsset := none
    nmMathmaps := none
    parseJson := demoParse
    mathmapCache := []
    fs := [(["opt", "mathmaps", "en.json"], "FSRULES")]
    tmpBase := ["tmp", "latex2sre-abc123"]
    extractedDir := none }

/-- The field contains no pipe delimiter character. -/
def pipeFree (s : String) : Prop := '|' ∉ s.data

instance (s : String) : Decidable (pipeFree s) :=
  inferInstanceAs (Decidable ('|' ∉ s.data))

/-- Splitting at an unambiguous delimiter: when neither left part contains
the delimiter, equal delimited concatenations have equal parts. -/
theorem append_pipe_inj : ∀ (a c b d : List Char),
    '|' ∉ a → '|' ∉ c → a ++ '|' :: b = c ++ '|' :: d → a = c ∧ b = d
  | [], [], _, _, _, _, h => by simpa using h
  | [], x :: xs, b, d, _, hc, h => by
    simp only [List.nil_append, List.cons_append, List.cons.injEq] at h
    refine absurd ?_ hc
    rw [← h.1]
    exact List.mem_cons_self _ _
  | y :: ys, [], b, d, ha, _, h => by
    simp only [List.cons_append, List.nil_append, List.cons.injEq] at h
    refine absurd ?_ ha
    rw [h.1]
    exact List.mem_cons_self _ _
  | y :: ys, x :: xs, b, d, ha, hc, h => by
    simp only [List.cons_append, List.cons.injEq] at h
    have ha2 : '|' ∉ ys := fun hm => ha (List.mem_cons_of_mem _ hm)
    have hc2 : '|' ∉ xs := fun hm => hc (List.mem_cons_of_mem _ hm)
    obtain ⟨h1, h2⟩ := append_pipe_inj ys xs b d ha2 hc2 h.2
    exact ⟨by rw [h.1, h1], h2⟩

/-- A world running as a self-contained binary: no override set, embedded
assets present. -/
def wSea : World :=
  { envPath := none
    globalPath := none
    seaGetAsset := some demoGet
    nodeSeaGetAsset := none
    nmMathmaps := none
    parseJson := demoParse
    mathmapCache := []
    fs := []
    tmpBase := ["tmp", "latex2sre-abc123"]
    extractedDir := none }

/-! Claim theorems. -/

/-- C1: when the override environment variable SRE_JSON_PATH holds a
directory (a truthy value), loadLocaleAny coincides with the filesystem
loader (the embedded-asset branch is not taken), the resolved JSON path is
that directory, and ensureExtractedAssets returns with no writes and the
state unchanged. -/
theorem c1_env_override_takes_fs_branch (w : World) (dir : Path) (locale : String)
    (h1 : w.envPath = some dir) (h2 : dir ≠ []) :
    loadLocaleAny w locale = loadLocaleFromFs w locale ∧
    getFsJsonPath w = some dir ∧
    ensureExtractedAssets w = (w, []) := by
  have ht : jsTruthyPath w.envPath = true := by
    simp [jsTruthyPath, h1, h2]
  refine ⟨?_, ?_, ?_⟩
  · unfold loadLocaleAny
    cases hmc : w.mathmapCache.lookup locale with
    | some s => simp [loadLocaleFromFs, hmc]
    | none => simp [hmc, ht]
  · have ht2 : jsTruthyPath (some dir) = true := by rw [← h1]; exact ht
    simp [getFsJsonPath, h1, ht2]
  · exact ensureExtracted_of_truthy w ht

/-- C2: if SRE_JSON_PATH is already set (truthy) on entry,
ensureExtractedAssets returns immediately with no writes and the state
unchanged; and in every case a second call right after a first one performs
no writes and leaves the state of the first call unchanged, so two calls
write only once and agree on the resolved path. -/
theorem c2_ensureExtracted_idempotent (w : World) :
    (jsTruthyPath w.envPath = true → ensureExtractedAssets w = (w, [])) ∧
    ensureExtractedAssets (ensureExtractedAssets w).1 =
      ((ensureExtractedAssets w).1, []) := by
  constructor
  · exact ensureExtracted_of_truthy w
  · by_cases h : jsTruthyPath w.envPath
    · rw [ensureExtracted_of_truthy w h]
      exact ensureExtracted_of_truthy w h
    · have h0 : jsTruthyPath w.envPath = false := by simpa using h
      have h2 : jsTruthyPath (rebindSea w).envPath = false := by
        rw [rebindSea_envPath]; exact h0
      rcases hsea : (rebindSea w).seaGetAsset with _ | g
      · rw [ensureExtracted_no_sea w h0 hsea]
        have h3 : (rebindSea (rebindSea w)).seaGetAsset = none := by
          rw [rebindSea_idem]; exact hsea
        have h5 := ensureExtracted_no_sea (rebindSea w) h2 h3
        rw [rebindSea_idem] at h5
        exact h5
      · rcases hp : (rebindSea w).parseJson
            (textFromBuffer (g (mathmapsAsset "manifest.json"))) with _ | m
        · rw [ensureExtracted_parse_fail w g h0 hsea hp]
          have h3 : (rebindSea (rebindSea w)).seaGetAsset = some g := by
            rw [rebindSea_idem]; exact hsea
          have h4 : (rebindSea (rebindSea w)).parseJson
              (textFromBuffer (g (mathmapsAsset "manifest.json"))) = none := by
            rw [rebindSea_idem]; exact hp
          have h5 := ensureExtracted_parse_fail (rebindSea w) g h2 h3 h4
          rw [rebindSea_idem] at h5
          exact h5
        · rw [ensureExtracted_success w g m h0 hsea hp]
          exact ensureExtracted_of_truthy _ (by simp [jsTruthyPath])

/-- Witness for C1 at a concrete world with the override set to
opt/mathmaps while embedded assets are also present. -/
theorem c1_witness :
    loadLocaleAny wEnvSet "en" = loadLocaleFromFs wEnvSet "en" ∧
    getFsJsonPath wEnvSet = some ["opt", "mathmaps"] ∧
    ensureExtractedAssets wEnvSet = (wEnvSet, []) :=
  c1_env_override_takes_fs_branch wEnvSet ["opt", "mathmaps"] "en" rfl (by simp)

/-- Witness for C2: at a world with the override already set the call is a
no-op, and at a self-contained-binary world a repeated call after the first
performs no writes and keeps the state. -/
theorem c2_witness :
    ensureExtractedAssets wEnvSet = (wEnvSet, []) ∧
    ensureExtractedAssets (ensureExtractedAssets wSea).1 =
      ((ensureExtractedAssets wSea).1, []) :=
  ⟨(c2_ensureExtracted_idempotent wEnvSet).1 rfl,
   (c2_ensureExtracted_idempotent wSea).2⟩

/-- C3: every locale listed in the embedded manifest whose asset reads
successfully yields the same text from the embedded-asset loader as a
filesystem read performed after extraction of the embedded assets. -/
theorem c3_roundtrip_equivalence (w : World) (g : String → Option String)
    (m : ManifestJson) (locale content : String)
    (h1 : jsTruthyPath w.envPath = false)
    (h2 : w.seaGetAsset = some g)
    (h3 : w.parseJson (textFromBuffer (g (mathmapsAsset "manifest.json"))) = some m)
    (h4 : (locale ++ ".json") ∈ m.files.getD [])
    (h5 : g (mathmapsAsset (locale ++ ".json")) = some content)
    (h6 : w.mathmapCache.lookup locale = none) :
    localeText (loadLocaleFromAssets w locale) = some content ∧
    localeText (loadLocaleFromFs (ensureExtractedAssets w).1 locale) = some content := by
  have hrb : rebindSea w = w := rebindSea_of_some w g h2
  have hEEA := ensureExtracted_success w g m h1 (by rw [hrb]; exact h2)
    (by rw [hrb]; exact h3)
  rw [hrb] at hEEA
  constructor
  · simp [loadLocaleFromAssets, h6, h2, h5, textFromBuffer, localeText]
  · rw [hEEA]
    have hlk : (((m.files.getD []).filterMap fun file =>
        (g (mathmapsAsset file)).map fun content =>
          (w.tmpBase ++ ["mathmaps", file], content)).reverse ++ w.fs).lookup
          (w.tmpBase ++ ["mathmaps", locale ++ ".json"]) = some content := by
      apply lookup_of_uniform
      · refine ⟨(w.tmpBase ++ ["mathmaps", locale ++ ".json"], content), ?_, rfl⟩
        rw [List.mem_reverse]
        exact List.mem_filterMap.mpr ⟨locale ++ ".json", h4, by rw [h5]; rfl⟩
      · intro p hp hpk
        rw [List.mem_reverse] at hp
        obtain ⟨f, hf, hfe⟩ := List.mem_filterMap.mp hp
        rcases hgc : g (mathmapsAsset f) with _ | c
        · rw [hgc] at hfe; simp at hfe
        · rw [hgc] at hfe
          rw [Option.map_some'] at hfe
          rw [Option.some.injEq] at hfe
          rw [← hfe] at hpk
          simp only at hpk
          have hfeq : f = locale ++ ".json" := by
            have := List.append_cancel_left hpk
            simpa using this
          rw [← hfe]
          rw [hfeq] at hgc
          rw [hgc] at h5
          exact (Option.some.injEq _ _ ▸ h5)
    simp [loadLocaleFromFs, h6, getFsJsonPath, jsTruthyPath, hlk, localeText]

/-- Witness for C3 at a concrete self-contained-binary world: locale en is
listed in the manifest and readable, and both loaders return its text. -/
theorem c3_witness :
    localeText (loadLocaleFromAssets wSea "en") = some "ENRULES" ∧
    localeText (loadLocaleFromFs (ensureExtractedAssets wSea).1 "en") =
      some "ENRULES" :=
  c3_roundtrip_equivalence wSea demoGet
    ⟨some ["en.json", "missing.json", "de.json"]⟩ "en" "ENRULES"
    rfl rfl rfl (by decide) rfl rfl

/-- A world with no embedded assets, no override, no node_modules fallback
and an empty filesystem. -/
def wNoAssets : World :=
  { envPath := none
    globalPath := none
    seaGetAsset := none
    nodeSeaGetAsset := none
    nmMathmaps := none
    parseJson := demoParse
    mathmapCache := []
    fs := []
    tmpBase := ["tmp", "latex2sre-abc123"]
    extractedDir := none }

/-- Counterexample to C4: in a world where the embedded assets yield
nothing for the locale and the filesystem yields nothing either,
loadLocaleAny does not fail — it returns the empty string as content
(textFromBuffer maps a missed asset to the empty string, which is cached
and returned). -/
theorem c4_counterexample :
    demoGet (mathmapsAsset ("xx" ++ ".json")) = none ∧
    getFsJsonPath wSea = none ∧
    wSea.fs = [] ∧
    loadLocaleAny wSea "xx" =
      .ok ("", { wSea with mathmapCache := [("xx", "")] }) := by
  refine ⟨rfl, rfl, rfl, ?_⟩
  rfl

/-- C4 amended: when the embedded-asset branch is taken (assets available,
no override set) a locale missing from the assets yields the empty string
as content instead of an error, while in the filesystem branch (no
embedded assets) a missing locale makes loadLocaleAny fail with an error
(a generic error, the code defines no LocaleNotFoundError class). -/
theorem c4_amended_missing_locale (w : World) (locale : String)
    (hc : w.mathmapCache.lookup locale = none) :
    (∀ g, w.seaGetAsset = some g → jsTruthyPath w.envPath = false →
      g (mathmapsAsset (locale ++ ".json")) = none →
      localeText (loadLocaleAny w locale) = some "") ∧
    (w.seaGetAsset = none →
      (∀ base, getFsJsonPath w = some base → base ≠ [] →
        w.fs.lookup (base ++ [locale ++ ".json"]) = none) →
      localeLoadFailed (loadLocaleAny w locale) = true) := by
  constructor
  · intro g hg he hmiss
    simp [loadLocaleAny, hc, hg, he, loadLocaleFromAssets, hmiss, textFromBuffer,
      localeText]
  · intro hns hfs
    simp only [loadLocaleAny, hc, loadLocaleFromFs, hns, Option.isSome_none,
      Bool.false_and, Bool.false_eq_true, if_false]
    cases hb : getFsJsonPath w with
    | none => simp [localeLoadFailed]
    | some base =>
      by_cases hbe : base.isEmpty
      · simp [hbe, localeLoadFailed]
      · have hne : base ≠ [] := by simpa [List.isEmpty_iff] using hbe
        have hl := hfs base hb hne
        simp [hbe, hl, localeLoadFailed]

/-- Witness for C4 amended: concretely, the embedded-asset branch returns
the empty string for a missing locale, and the filesystem branch fails. -/
theorem c4_amended_witness :
    localeText (loadLocaleAny wSea "xx") = some "" ∧
    localeLoadFailed (loadLocaleAny wNoAssets "xx") = true := by
  constructor
  · exact (c4_amended_missing_locale wSea "xx" rfl).1 demoGet rfl rfl rfl
  · refine (c4_amended_missing_locale wNoAssets "xx" rfl).2 rfl ?_
    intro base hb
    simp [getFsJsonPath, wNoAssets, jsTruthyPath] at hb

/-- Counterexample to C5: two tuples that differ in the expression and the
locale fields but shift text across the pipe delimiter produce the same
cache key, so distinct tuples do not always get distinct keys. -/
theorem c5_counterexample :
    cacheKey "a|b" ⟨"c", "d", "e", "f"⟩ = cacheKey "a" ⟨"b|c", "d", "e", "f"⟩ ∧
    ¬("a|b" = "a" ∧ ("c" : String) = "b|c") := by
  constructor
  · rfl
  · intro h
    exact absurd h.1 (by decide)

/-- C5 amended: two requests share a cache key exactly when all five key
fields are equal as exact strings, provided the expression, locale, domain
and style fields contain no pipe delimiter; no normalization is applied,
so fields differing only in whitespace are distinct keys. -/
theorem c5_amended_cacheKey_exact (l1 l2 : String) (o1 o2 : ConvOptions)
    (hl1 : pipeFree l1) (hl2 : pipeFree l2)
    (hloc1 : pipeFree o1.locale) (hloc2 : pipeFree o2.locale)
    (hdom1 : pipeFree o1.domain) (hdom2 : pipeFree o2.domain)
    (hsty1 : pipeFree o1.style) (hsty2 : pipeFree o2.style) :
    cacheKey l1 o1 = cacheKey l2 o2 ↔ (l1 = l2 ∧ o1 = o2) := by
  constructor
  · intro h
    have hd : (cacheKey l1 o1).data = (cacheKey l2 o2).data := by rw [h]
    have hpipe : ("|" : String).data = ['|'] := rfl
    simp only [cacheKey, String.data_append, hpipe, List.append_assoc,
      List.singleton_append] at hd
    obtain ⟨e1, hd⟩ := append_pipe_inj _ _ _ _ hl1 hl2 hd
    obtain ⟨e2, hd⟩ := append_pipe_inj _ _ _ _ hloc1 hloc2 hd
    obtain ⟨e3, hd⟩ := append_pipe_inj _ _ _ _ hdom1 hdom2 hd
    obtain ⟨e4, hd⟩ := append_pipe_inj _ _ _ _ hsty1 hsty2 hd
    obtain ⟨a1, b1, c1, d1⟩ := o1
    obtain ⟨a2, b2, c2, d2⟩ := o2
    exact ⟨String.ext e1, by
      simp only [ConvOptions.mk.injEq]
      exact ⟨String.ext e2, String.ext e3, String.ext e4, String.ext hd⟩⟩
  · intro h
    rw [h.1, h.2]

/-- Witness for C5 amended: with pipe-free fields, two expressions that
differ only in whitespace produce distinct keys. -/
theorem c5_amended_witness :
    (cacheKey "x+1" ⟨"en", "mathspeak", "default", "speech"⟩ =
        cacheKey "x +1" ⟨"en", "mathspeak", "default", "speech"⟩ ↔
      ("x+1" = "x +1" ∧
        (⟨"en", "mathspeak", "default", "speech"⟩ : ConvOptions) =
          ⟨"en", "mathspeak", "default", "speech"⟩)) :=
  c5_amended_cacheKey_exact "x+1" "x +1" ⟨"en", "mathspeak", "default", "speech"⟩
    ⟨"en", "mathspeak", "default", "speech"⟩ (by decide) (by decide) (by decide)
    (by decide) (by decide) (by decide) (by decide) (by decide)

theorem convertToSpeech_of_error (compute : String → Except String String)
    (useCache : Bool) (opts : ConvOptions) (cache : List (String × String))
    (latex msg : String)
    (h : (convertToSpeech compute useCache opts cache latex).result = .error msg) :
    convertToSpeech compute useCache opts cache latex =
      { result := .error msg, cache := cache, computeCalls := 1 } := by
  cases hl : (if useCache then cache.lookup (cacheKey latex opts) else none) with
  | some v =>
    rw [convertToSpeech] at h
    simp only [hl] at h
    exact Except.noConfusion h
  | none =>
    cases hc : compute latex with
    | ok speech =>
      rw [convertToSpeech] at h
      simp only [hl, hc] at h
      exact Except.noConfusion h
    | error m2 =>
      rw [convertToSpeech] at h ⊢
      simp only [hl, hc] at h ⊢
      simp only [Except.error.injEq] at h
      simp [← h]

/-- C6: with caching enabled, when a first call converts successfully, a
second call with identical arguments returns the same output, runs the
conversion pipeline zero times, and serves exactly the value the first
call stored under the key. -/
theorem c6_cached_second_call (compute : String → Except String String)
    (opts : ConvOptions) (cache0 : List (String × String)) (latex speech : String)
    (h : (convertToSpeech compute true opts cache0 latex).result = .ok speech) :
    (convertToSpeech compute true opts
        (convertToSpeech compute true opts cache0 latex).cache latex).result =
      .ok speech ∧
    (convertToSpeech compute true opts
        (convertToSpeech compute true opts cache0 latex).cache latex).computeCalls = 0 ∧
    (convertToSpeech compute true opts cache0 latex).cache.lookup
      (cacheKey latex opts) = some speech := by
  cases hl : cache0.lookup (cacheKey latex opts) with
  | some v =>
    have hr : convertToSpeech compute true opts cache0 latex =
        { result := .ok v, cache := cache0, computeCalls := 0 } := by
      simp [convertToSpeech, hl]
    rw [hr] at h
    simp only [Except.ok.injEq] at h
    subst h
    rw [hr]
    simp [convertToSpeech, hl]
  | none =>
    cases hc : compute latex with
    | error m =>
      have hr : (convertToSpeech compute true opts cache0 latex).result =
          .error ("Conversion error for \"" ++ latex ++ "\": " ++ m) := by
        simp [convertToSpeech, hl, hc]
      rw [hr] at h
      exact absurd h (by simp)
    | ok sp =>
      have hr : convertToSpeech compute true opts cache0 latex =
          { result := .ok sp, cache := (cacheKey latex opts, sp) :: cache0,
            computeCalls := 1 } := by
        simp [convertToSpeech, hl, hc]
      rw [hr] at h
      simp only [Except.ok.injEq] at h
      subst h
      rw [hr]
      simp [convertToSpeech, List.lookup]

/-- Witness for C6: a concrete first call caches the speech and the second
call serves it without running the pipeline. -/
theorem c6_witness :
    (convertToSpeech (fun s => .ok ("speech of " ++ s)) true
        ⟨"en", "mathspeak", "default", "speech"⟩
        (convertToSpeech (fun s => .ok ("speech of " ++ s)) true
          ⟨"en", "mathspeak", "default", "speech"⟩ [] "x=1").cache "x=1").result =
      .ok "speech of x=1" ∧
    (convertToSpeech (fun s => .ok ("speech of " ++ s)) true
        ⟨"en", "mathspeak", "default", "speech"⟩
        (convertToSpeech (fun s => .ok ("speech of " ++ s)) true
          ⟨"en", "mathspeak", "default", "speech"⟩ [] "x=1").cache "x=1").computeCalls = 0 ∧
    (convertToSpeech (fun s => .ok ("speech of " ++ s)) true
        ⟨"en", "mathspeak", "default", "speech"⟩ [] "x=1").cache.lookup
      (cacheKey "x=1" ⟨"en", "mathspeak", "default", "speech"⟩) = some "speech of x=1" :=
  c6_cached_second_call (fun s => .ok ("speech of " ++ s))
    ⟨"en", "mathspeak", "default", "speech"⟩ [] "x=1" "speech of x=1" rfl

/-- C7: with caching disabled every call leaves the cache map unchanged
(no insertion) and runs the conversion pipeline exactly once (no memoized
short-circuit), regardless of the cache contents. -/
theorem c7_no_cache_recomputes (compute : String → Except String String)
    (opts : ConvOptions) (cache0 : List (String × String)) (latex : String) :
    (convertToSpeech compute false opts cache0 latex).cache = cache0 ∧
    (convertToSpeech compute false opts cache0 latex).computeCalls = 1 := by
  cases hc : compute latex <;> simp [convertToSpeech, hc]

/-- Witness for C7: even with the key already present in the cache map, a
call with caching disabled runs the pipeline and leaves the map unchanged. -/
theorem c7_witness :
    (convertToSpeech (fun s => .ok ("speech of " ++ s)) false
        ⟨"en", "mathspeak", "default", "speech"⟩
        [(cacheKey "x=1" ⟨"en", "mathspeak", "default", "speech"⟩, "stale")]
        "x=1").cache =
      [(cacheKey "x=1" ⟨"en", "mathspeak", "default", "speech"⟩, "stale")] ∧
    (convertToSpeech (fun s => .ok ("speech of " ++ s)) false
        ⟨"en", "mathspeak", "default", "speech"⟩
        [(cacheKey "x=1" ⟨"en", "mathspeak", "default", "speech"⟩, "stale")]
        "x=1").computeCalls = 1 :=
  c7_no_cache_recomputes (fun s => .ok ("speech of " ++ s))
    ⟨"en", "mathspeak", "default", "speech"⟩
    [(cacheKey "x=1" ⟨"en", "mathspeak", "default", "speech"⟩, "stale")] "x=1"

/-- C8: during extraction the writes are exactly one per manifest file
whose asset reads successfully (files with unreadable assets are skipped,
the others are written in manifest order), every readable listed file is
indeed written, and the resolved path is still recorded afterwards. -/
theorem c8_extraction_skips_missing (w : World) (g : String → Option String)
    (m : ManifestJson)
    (h1 : jsTruthyPath w.envPath = false)
    (h2 : w.seaGetAsset = some g)
    (h3 : w.parseJson (textFromBuffer (g (mathmapsAsset "manifest.json"))) = some m) :
    (ensureExtractedAssets w).2 =
      WriteOp.mkdirOp w.tmpBase :: WriteOp.mkdirOp (w.tmpBase ++ ["mathmaps"]) ::
        ((m.files.getD []).filterMap fun file =>
          (g (mathmapsAsset file)).map fun content =>
            WriteOp.writeFileOp (w.tmpBase ++ ["mathmaps", file]) content) ∧
    (∀ f c, f ∈ m.files.getD [] → g (mathmapsAsset f) = some c →
      WriteOp.writeFileOp (w.tmpBase ++ ["mathmaps", f]) c ∈ (ensureExtractedAssets w).2) ∧
    (ensureExtractedAssets w).1.envPath = some (w.tmpBase ++ ["mathmaps"]) := by
  have hrb : rebindSea w = w := rebindSea_of_some w g h2
  have hEEA := ensureExtracted_success w g m h1 (by rw [hrb]; exact h2)
    (by rw [hrb]; exact h3)
  rw [hrb] at hEEA
  rw [hEEA]
  refine ⟨rfl, ?_, rfl⟩
  intro f c hf hc
  refine List.mem_cons_of_mem _ (List.mem_cons_of_mem _ ?_)
  exact List.mem_filterMap.mpr ⟨f, hf, by rw [hc]; rfl⟩

/-- Witness for C8: with missing.json absent from the embedded assets, the
extraction writes the two directories and the two readable files only, and
still records the resolved path. -/
theorem c8_witness :
    (ensureExtractedAssets wSea).2 =
      [WriteOp.mkdirOp ["tmp", "latex2sre-abc123"],
        WriteOp.mkdirOp ["tmp", "latex2sre-abc123", "mathmaps"],
        WriteOp.writeFileOp ["tmp", "latex2sre-abc123", "mathmaps", "en.json"] "ENRULES",
        WriteOp.writeFileOp ["tmp", "latex2sre-abc123", "mathmaps", "de.json"] "DERULES"] ∧
    (ensureExtractedAssets wSea).1.envPath =
      some ["tmp", "latex2sre-abc123", "mathmaps"] := by
  have h := c8_extraction_skips_missing wSea demoGet
    ⟨some ["en.json", "missing.json", "de.json"]⟩ rfl rfl rfl
  refine ⟨?_, h.2.2⟩
  rw [h.1]
  rfl

/-- C9: the batch and stdin loops process lines strictly in input order (a
run over a concatenation is the run of the first lines followed by the run
of the remaining lines from the resulting cache, with outputs and error
messages concatenating in the same order), and a line whose conversion
fails contributes one message to the error stream while every following
line is still processed. -/
theorem c9_order_and_error_isolation (compute : String → Except String String)
    (useCache : Bool) (opts : ConvOptions) :
    (∀ (xs ys : List String) (cache0 : List (String × String)),
      processLines compute useCache opts (xs ++ ys) cache0 =
        { outputs := (processLines compute useCache opts xs cache0).outputs ++
            (processLines compute useCache opts ys
              (processLines compute useCache opts xs cache0).cache).outputs
          errors := (processLines compute useCache opts xs cache0).errors ++
            (processLines compute useCache opts ys
              (processLines compute useCache opts xs cache0).cache).errors
          cache := (processLines compute useCache opts ys
            (processLines compute useCache opts xs cache0).cache).cache
          computeCalls := (processLines compute useCache opts xs cache0).computeCalls +
            (processLines compute useCache opts ys
              (processLines compute useCache opts xs cache0).cache).computeCalls }) ∧
    (∀ (bad : String) (ys : List String) (cache0 : List (String × String)) (msg : String),
      jsTrim bad ≠ "" →
      (convertToSpeech compute useCache opts cache0 (jsTrim bad)).result = .error msg →
      processLines compute useCache opts (bad :: ys) cache0 =
        { outputs := (processLines compute useCache opts ys cache0).outputs
          errors := msg :: (processLines compute useCache opts ys cache0).errors
          cache := (processLines compute useCache opts ys cache0).cache
          computeCalls := 1 + (processLines compute useCache opts ys cache0).computeCalls }) := by
  constructor
  · intro xs ys
    induction xs with
    | nil =>
      intro cache0
      simp [processLines]
    | cons line xs ih =>
      intro cache0
      by_cases ht : jsTrim line = ""
      · simp only [List.cons_append, processLines, ht, if_pos]
        exact ih cache0
      · simp only [List.cons_append, processLines, ht, if_neg, if_false]
        cases hr : (convertToSpeech compute useCache opts cache0 (jsTrim line)).result with
        | ok speech => simp [hr, ih, Nat.add_assoc]
        | error msg => simp [hr, ih, Nat.add_assoc]
  · intro bad ys cache0 msg ht herr
    have hc := convertToSpeech_of_error compute useCache opts cache0 (jsTrim bad) msg herr
    simp only [processLines, ht, if_neg, if_false, hc]

/-- Witness for C9: a concrete failing middle line is reported to the
error stream and the following line still converts, in input order. -/
theorem c9_witness :
    processLines (fun s => if s = "bad" then .error "parse failure"
        else .ok ("speech of " ++ s)) true
      ⟨"en", "mathspeak", "default", "speech"⟩ (["x=1"] ++ ["y=2"]) [] =
      { outputs := (processLines (fun s => if s = "bad" then .error "parse failure"
            else .ok ("speech of " ++ s)) true
          ⟨"en", "mathspeak", "default", "speech"⟩ ["x=1"] []).outputs ++
          (processLines (fun s => if s = "bad" then .error "parse failure"
              else .ok ("speech of " ++ s)) true
            ⟨"en", "mathspeak", "default", "speech"⟩ ["y=2"]
            (processLines (fun s => if s = "bad" then .error "parse failure"
                else .ok ("speech of " ++ s)) true
              ⟨"en", "mathspeak", "default", "speech"⟩ ["x=1"] []).cache).outputs
        errors := (processLines (fun s => if s = "bad" then .error "parse failure"
            else .ok ("speech of " ++ s)) true
          ⟨"en", "mathspeak", "default", "speech"⟩ ["x=1"] []).errors ++
          (processLines (fun s => if s = "bad" then .error "parse failure"
              else .ok ("speech of " ++ s)) true
            ⟨"en", "mathspeak", "default", "speech"⟩ ["y=2"]
            (processLines (fun s => if s = "bad" then .error "parse failure"
                else .ok ("speech of " ++ s)) true
              ⟨"en", "mathspeak", "default", "speech"⟩ ["x=1"] []).cache).errors
        cache := (processLines (fun s => if s = "bad" then .error "parse failure"
            else .ok ("speech of " ++ s)) true
          ⟨"en", "mathspeak", "default", "speech"⟩ ["y=2"]
          (processLines (fun s => if s = "bad" then .error "parse failure"
              else .ok ("speech of " ++ s)) true
            ⟨"en", "mathspeak", "default", "speech"⟩ ["x=1"] []).cache).cache
        computeCalls := (processLines (fun s => if s = "bad" then .error "parse failure"
            else .ok ("speech of " ++ s)) true
          ⟨"en", "mathspeak", "default", "speech"⟩ ["x=1"] []).computeCalls +
          (processLines (fun s => if s = "bad" then .error "parse failure"
              else .ok ("speech of " ++ s)) true
            ⟨"en", "mathspeak", "default", "speech"⟩ ["y=2"]
            (processLines (fun s => if s = "bad" then .error "parse failure"
                else .ok ("speech of " ++ s)) true
              ⟨"en", "mathspeak", "default", "speech"⟩ ["x=1"] []).cache).computeCalls } ∧
    processLines (fun s => if s = "bad" then .error "parse failure"
        else .ok ("speech of " ++ s)) true
      ⟨"en", "mathspeak", "default", "speech"⟩ ["bad", "y=2"] [] =
      { outputs := ["speech of y=2"]
        errors := ["Conversion error for \"bad\": parse failure"]
        cache := [(cacheKey "y=2" ⟨"en", "mathspeak", "default", "speech"⟩,
          "speech of y=2")]
        computeCalls := 2 } := by
  constructor
  · exact (c9_order_and_error_isolation _ true _).1 ["x=1"] ["y=2"] []
  · have h := (c9_order_and_error_isolation (fun s => if s = "bad"
        then .error "parse failure" else .ok ("speech of " ++ s)) true
        ⟨"en", "mathspeak", "default", "speech"⟩).2 "bad" ["y=2"] []
        "Conversion error for \"bad\": parse failure" (by decide) rfl
    rw [h]
    rfl

/-- C10: in the input loops every line is trimmed before conversion —
replacing a line by its trimmed text changes nothing — and a line that is
empty after trimming is skipped entirely: processing continues as if the
line were absent, with no output, no error and no cache change. -/
theorem c10_trim_and_skip_empty (compute : String → Except String String)
    (useCache : Bool) (opts : ConvOptions) (line : String) (rest : List String)
    (cache0 : List (String × String)) :
    (jsTrim line = "" →
      processLines compute useCache opts (line :: rest) cache0 =
        processLines compute useCache opts rest cache0) ∧
    (∀ t, jsTrim line = t → jsTrim t = t →
      processLines compute useCache opts (line :: rest) cache0 =
        processLines compute useCache opts (t :: rest) cache0) := by
  constructor
  · intro h
    simp [processLines, h]
  · intro t h1 h2
    subst h1
    simp only [processLines, h2]

/-- Witness for C10: a whitespace-only line is skipped outright, and a
line with surrounding whitespace behaves exactly like its trimmed text. -/
theorem c10_witness :
    processLines (fun s => .ok ("speech of " ++ s)) true
      ⟨"en", "mathspeak", "default", "speech"⟩ ["   ", "x=1"] [] =
      processLines (fun s => .ok ("speech of " ++ s)) true
        ⟨"en", "mathspeak", "default", "speech"⟩ ["x=1"] [] ∧
    processLines (fun s => .ok ("speech of " ++ s)) true
      ⟨"en", "mathspeak", "default", "speech"⟩ [" x=1 ", "y=2"] [] =
      processLines (fun s => .ok ("speech of " ++ s)) true
        ⟨"en", "mathspeak", "default", "speech"⟩ ["x=1", "y=2"] [] :=
  ⟨(c10_trim_and_skip_empty (fun s => .ok ("speech of " ++ s)) true
      ⟨"en", "mathspeak", "default", "speech"⟩ "   " ["x=1"] []).1 (by decide),
   (c10_trim_and_skip_empty (fun s => .ok ("speech of " ++ s)) true
      ⟨"en", "mathspeak", "default", "speech"⟩ " x=1 " ["y=2"] []).2 "x=1"
     (by decide) (by decide)⟩

end Latex2Sre
